import Mathlib

/-!
Verification development for the `event` service (`src/models.py`, `src/tasks.py`).

Time is modelled in whole seconds as `Nat` (datetimes are absolute second
counts, `timedelta`s are second counts).  Python dictionaries built by
`dict(zip(keys, values))` are modelled as ordered association lists, which is
faithful to CPython 3.7+ insertion-ordered dicts.

The embedding follows the source line by line; each definition's doc comment
names the Python function it embeds.
-/

namespace EventService

/-- Errors raised by the embedded Python code. -/
inductive PyError where
  | typeError
  | indexError
  | valueError (msg : String)
  deriving DecidableEq, Repr

/- ## CrontabCodec (`CrontabType` in `src/models.py`, lines 257-280) -/

/-- The `keys` tuple of `CrontabType` (models.py line 259), in source order:
`('minute', 'hour', 'day_of_week', 'day_of_month', 'month_of_year')`. -/
def crontabKeys : List String :=
  ["minute", "hour", "day_of_week", "day_of_month", "month_of_year"]

/-- Characters matched by Python's regex `\s` (ASCII range):
space, tab, newline, carriage return, vertical tab, form feed. -/
def isPySpace (c : Char) : Bool :=
  c = ' ' || c = '\t' || c = '\n' || c = '\r' || c = Char.ofNat 11 || c = Char.ofNat 12

/-- Worker for `re.split(r'\s+', value)`: a maximal nonempty run of whitespace
characters separates pieces; leading/trailing whitespace yields an empty
leading/trailing piece, exactly as `re.split` behaves.  `acc` holds the
current piece reversed; `inSep` records that the previous character belonged
to the current (already emitted) whitespace run, so further whitespace is
absorbed into the same separator. -/
def splitWsM (inSep : Bool) : List Char → List Char → List (List Char)
  | [], acc => [acc.reverse]
  | c :: rest, acc =>
    if isPySpace c then
      if inSep then splitWsM true rest []
      else acc.reverse :: splitWsM true rest []
    else splitWsM false rest (c :: acc)

/-- `re.split(r'\s+', s)` on the character list of `s`. -/
def splitWs (s : List Char) : List (List Char) :=
  splitWsM false s []

/-- The whitespace-separated fields of a string, as strings. -/
def wsFields (s : String) : List String :=
  (splitWs s.data).map fun l => String.mk l

/-- `CrontabType.process_bind_param` (models.py lines 264-269), the parse
direction: split on `\s+`, require exactly 5 fields, return
`dict(zip(self.keys, values))` as an insertion-ordered association list.
Raises `ValueError` when the field count is not 5. -/
def process_bind_param (value : String) : Except PyError (List (String × String)) :=
  let values := wsFields value
  if values.length ≠ 5 then
    .error (.valueError ("Illegal crontab field value: " ++ value))
  else
    .ok (crontabKeys.zip values)

/-- Python `'<sep>'.join(xs)` specialised to a single-space separator. -/
def joinSpace : List String → String
  | [] => ""
  | [x] => x
  | x :: xs => x ++ " " ++ joinSpace xs

/-- `CrontabType.process_result_value` (models.py lines 271-276), the format
direction: take `value.values()` in insertion order, require exactly 5,
return `' '.join(values)`. -/
def process_result_value (d : List (String × String)) : Except PyError String :=
  let values := d.map (·.2)
  if values.length ≠ 5 then
    .error (.valueError "Illegal crontab field value")
  else
    .ok (joinSpace values)

/-- `format(parse(s))`: the round-trip through the crontab codec. -/
def crontabRoundTrip (s : String) : Except PyError String :=
  (process_bind_param s).bind process_result_value

/-- A crontab field is well formed when it is nonempty and contains no
whitespace character. -/
def GoodField (f : String) : Prop :=
  f.data ≠ [] ∧ ∀ c ∈ f.data, isPySpace c = false

instance : DecidablePred GoodField := fun f => by
  unfold GoodField
  infer_instance

/-- Character-level counterpart of `joinSpace`: the single-space join of a
list of character lists. -/
def joinChars : List (List Char) → List Char
  | [] => []
  | [f] => f
  | f :: g :: fs => f ++ ' ' :: joinChars (g :: fs)

/- ## Python value model for the chained comparison in `Event.active` -/

/-- A Python value occurring in the chained comparison at models.py line 97:
either a datetime (modelled in whole seconds) or the coroutine object
returned by calling the `async` method `on_start`. -/
inductive PyVal where
  | dt (n : Nat)
  | coroutine
  deriving DecidableEq, Repr

/-- Python `>`: defined between two datetimes; comparing a datetime with a
coroutine object raises `TypeError`. -/
def pyGt : PyVal → PyVal → Except PyError Bool
  | .dt a, .dt b => .ok (decide (a > b))
  | _, _ => .error .typeError

/-- Python `>=`: defined between two datetimes; comparing a datetime with a
coroutine object raises `TypeError`. -/
def pyGe : PyVal → PyVal → Except PyError Bool
  | .dt a, .dt b => .ok (decide (a ≥ b))
  | _, _ => .error .typeError

/- ## Event (models.py lines 61-201) -/

/-- The `events` table row (models.py lines 61-77).  `payload` is an opaque
key-value map, modelled as an association list. -/
structure Event where
  id : Nat
  name : Option String := none
  categoryId : Option Nat := none
  generatorId : Option Nat := none
  createdAt : Nat := 0
  startAt : Nat
  finishAt : Nat
  payload : List (String × String) := []
  isActive : Bool := true
  onStartTaskId : Option Nat := none
  onFinishTaskId : Option Nat := none
  deriving DecidableEq, Repr

/-- `Event.active` (models.py line 97):
`return self.finish_at > timezone.now() >= self.on_start() and self.is_active`.
The chained comparison first evaluates `finish_at > now`; only when that is
true does Python evaluate the second comparison `now >= self.on_start()`,
which compares the datetime `now` with the coroutine object returned by
calling the `async` method `on_start` — a `TypeError`.  `and` short-circuits,
so when the chain is already false the result is `False` without reading
`is_active`. -/
def Event.active (e : Event) (now : Nat) : Except PyError Bool := do
  let b1 ← pyGt (.dt e.finishAt) (.dt now)
  if b1 then
    let b2 ← pyGe (.dt now) .coroutine
    if b2 then pure e.isActive else pure false
  else
    pure false

/-- The spec's predicate for an active Event: `isActive` is true and the
current time lies within `[startAt, finishAt)`.  Stated from the spec's
words, for comparison with `Event.active`. -/
def Event.activeSpec (e : Event) (now : Nat) : Bool :=
  e.isActive && decide (e.startAt ≤ now) && decide (now < e.finishAt)

/-- `Event.start_in` (models.py lines 107-110): the timedelta
`start_at - now` when `start_at >= now`, otherwise `None`. -/
def Event.start_in (e : Event) (now : Nat) : Option Nat :=
  if e.startAt ≥ now then some (e.startAt - now) else none

/-- `Event.finish_in` (models.py lines 112-115): the timedelta
`finish_at - now` when `finish_at >= now`, otherwise `None`. -/
def Event.finish_in (e : Event) (now : Nat) : Option Nat :=
  if e.finishAt ≥ now then some (e.finishAt - now) else none

/-- Python truthiness of an `Optional[timedelta]` (used by
`if target.start_in:`): `None` and the zero timedelta are falsy. -/
def truthyDelta : Option Nat → Bool
  | none => false
  | some d => d != 0

/-- `timedelta.seconds`, used as the `countdown` argument in the hooks: the
seconds component of the normalised timedelta, i.e. the total seconds modulo
86400 for a non-negative delta.  It is not the total number of seconds
(`timedelta.total_seconds()` would be). -/
def tdSeconds (d : Nat) : Nat := d % 86400

/-- The handler a one-shot celery task is bound to. -/
inductive TaskKind where
  | eventStart
  | eventFinish
  deriving DecidableEq, Repr

/-- A one-shot celery task created by `apply_async((event_id,), countdown=c)`
at absolute time `now`: it becomes eligible to fire at `eta = now + c`. -/
structure ScheduledTask where
  id : Nat
  kind : TaskKind
  eventId : Nat
  eta : Nat
  deriving DecidableEq, Repr

/-- The scheduling body shared verbatim by the `before_insert` and
`before_update` hooks (models.py lines 162-170 and 185-193): when `start_in`
is truthy, `apply_async` the start task with `countdown = start_in.seconds`
and store its id in `on_start_task_id`; then likewise for the finish task.
`nid` supplies fresh task ids.  Returns the mutated event and the scheduled
tasks. -/
def scheduleEventTasks (now nid : Nat) (e : Event) : Event × List ScheduledTask :=
  let s := e.start_in now
  let r1 :=
    if truthyDelta s then
      ({ e with onStartTaskId := some nid },
       [ScheduledTask.mk nid .eventStart e.id (now + tdSeconds (s.getD 0))],
       nid + 1)
    else (e, ([] : List ScheduledTask), nid)
  let e1 := r1.1
  let f := e1.finish_in now
  if truthyDelta f then
    ({ e1 with onFinishTaskId := some r1.2.2 },
     r1.2.1 ++ [ScheduledTask.mk r1.2.2 .eventFinish e.id (now + tdSeconds (f.getD 0))])
  else (e1, r1.2.1)

/-- `on_event_create` (models.py lines 155-170), the `before_insert` hook:
return unchanged if the event is inactive, otherwise run the scheduling
body. -/
def on_event_create (now nid : Nat) (e : Event) : Event × List ScheduledTask :=
  if !e.isActive then (e, [])
  else scheduleEventTasks now nid e

/-- `on_event_update` (models.py lines 173-193), the `before_update` hook:
revoke both stored task ids when present (a UUID value is always truthy, so
`if target.on_start_task_id:` tests only for `None`; the fields themselves
are never cleared), then, when the event is active, rerun the scheduling
body.  Returns the updated event, the newly scheduled tasks and the revoked
task ids. -/
def on_event_update (now nid : Nat) (e : Event) :
    Event × List ScheduledTask × List Nat :=
  let revoked := e.onStartTaskId.toList ++ e.onFinishTaskId.toList
  if !e.isActive then (e, [], revoked)
  else
    let r := scheduleEventTasks now nid e
    (r.1, r.2, revoked)

/-- `on_event_delete` (models.py lines 196-201), the `after_delete` hook:
revoke both stored task ids; nothing is rescheduled. -/
def on_event_delete (e : Event) : List Nat :=
  e.onStartTaskId.toList ++ e.onFinishTaskId.toList

/- ## EventGenerator (models.py lines 283-360) and its handler (tasks.py) -/

/-- The `event_generators` table row (models.py lines 283-299). -/
structure EventGenerator where
  id : Nat
  poolId : Option Nat := none
  isActive : Bool := true
  enabled : Bool := true
  lastRunAt : Option Nat := none
  totalRunCount : Nat := 0
  categoryId : Option Nat := none
  startAt : Nat
  finishAt : Nat
  payload : List (String × String) := []
  deriving DecidableEq, Repr

/-- `EventGenerator.run` (models.py lines 305-320): stamp
`last_run_at = now`, increment `total_run_count`, save, then create a new
Event from the templated parameters (`name=None`, `category_id`, `start_at`,
`finish_at`, `payload`, `is_active` defaulting to `True`,
`generator_id = self.id`).  `eid` supplies the autoincrement id of the new
event; its `created_at` defaults to `timezone.now()`. -/
def EventGenerator.run (now eid : Nat) (g : EventGenerator)
    (is_active : Bool := true) : EventGenerator × Event :=
  ({ g with lastRunAt := some now, totalRunCount := g.totalRunCount + 1 },
   { id := eid
     name := none
     categoryId := g.categoryId
     generatorId := some g.id
     createdAt := now
     startAt := g.startAt
     finishAt := g.finishAt
     payload := g.payload
     isActive := is_active
     onStartTaskId := none
     onFinishTaskId := none })

/-- `EventGenerator.query.get(id_)`: the record with the given primary key. -/
def findGenerator (db : List EventGenerator) (i : Nat) : Option EventGenerator :=
  db.find? fun g => g.id == i

/-- Persisting a loaded, mutated record (`save`): the row with this id is
replaced in the table. -/
def saveGenerator (db : List EventGenerator) (g : EventGenerator) :
    List EventGenerator :=
  db.map fun x => if x.id == g.id then g else x

/-- `_events_generator_run` (tasks.py lines 30-35), the body of the
`"generatorRun"` handler: load the generator by id; if missing, no-op;
otherwise call `run()`.  Returns the updated generator table and the list of
Events created by the invocation. -/
def events_generator_run (now eid : Nat) (db : List EventGenerator) (i : Nat) :
    List EventGenerator × List Event :=
  match findGenerator db i with
  | none => (db, [])
  | some g =>
    let r := g.run now eid
    (saveGenerator db r.1, [r.2])

/- ## EventGeneratorPool (models.py lines 378-451) -/

/-- A value of `ChoiceType(RUN_SCHEMES)`: on load, sqlalchemy-utils coerces
the stored string into a `Choice` object wrapping the code
(`'all'` or `'any'`). -/
structure Choice where
  code : String
  deriving DecidableEq, Repr

/-- Python `is` between a `Choice` object and a string literal, as written in
`EventGeneratorPool.run` (`self.run_scheme is 'any'`, models.py lines
402-404): `is` tests object identity, and a `Choice` instance is never the
same object as a `str` literal, so the test is `False` whatever the wrapped
code. -/
def Choice.isLiteral (_ : Choice) (_ : String) : Bool := false

/-- The `event_generator_pools` table row (models.py lines 378-397). -/
structure EventGeneratorPool where
  id : Nat
  isActive : Bool := true
  runScheme : Choice := ⟨"any"⟩
  lastRunAt : Option Nat := none
  totalRunCount : Nat := 0
  deriving DecidableEq, Repr

/-- `random.choice(xs)`: an arbitrary element of `xs`, raising `IndexError`
on an empty sequence.  The randomness source is injected as the index `k`. -/
def randomChoice (k : Nat) : List α → Except PyError α
  | [] => .error .indexError
  | x :: xs => .ok ((x :: xs).getD (k % (x :: xs).length) x)

/-- `EventGeneratorPool.run` (models.py lines 399-415): load the member
generators having `enabled=True`; choose the prepared subset according to
the `is` comparisons on `run_scheme` (§`Choice.isLiteral`), falling through
to the defensive default `[]`; then set `is_active = False` on every enabled
generator and `is_active = True` on every prepared one, saving each.  The
pool record's own columns are not written.  `gens` is the pool's generator
table (rows with distinct ids) and `k` injects the randomness consumed by
`random.choice`. -/
def EventGeneratorPool.run (k : Nat) (p : EventGeneratorPool)
    (gens : List EventGenerator) :
    Except PyError (EventGeneratorPool × List EventGenerator) := do
  let enabledGens := gens.filter (·.enabled)
  let prepared ←
    if p.runScheme.isLiteral "any" then do
      let g ← randomChoice k enabledGens
      pure [g]
    else if p.runScheme.isLiteral "all" then
      pure enabledGens
    else
      pure ([] : List EventGenerator)
  let preparedIds := prepared.map (·.id)
  let gens1 := gens.map fun g => if g.enabled then { g with isActive := false } else g
  let gens2 := gens1.map fun g =>
    if preparedIds.contains g.id then { g with isActive := true } else g
  pure (p, gens2)

/-- Count of generators in the table that are enabled and active: the spec's
"exactly one generator in `E` has `isActive = true`" is
`countEnabledActive = 1`. -/
def countEnabledActive (gens : List EventGenerator) : Nat :=
  (gens.filter fun g => g.enabled && g.isActive).length

/-! ## Lemmas about the crontab codec -/

theorem string_mk_data (s : String) : String.mk s.data = s := by
  cases s
  rfl

theorem string_data_append (a b : String) : (a ++ b).data = a.data ++ b.data := by
  cases a
  cases b
  rfl

theorem data_joinSpace : ∀ l : List String,
    (joinSpace l).data = joinChars (l.map String.data)
  | [] => rfl
  | [_] => rfl
  | x :: y :: l => by
    simp only [joinSpace, joinChars, List.map_cons]
    rw [string_data_append, string_data_append, data_joinSpace (y :: l)]
    simp [joinChars]

theorem splitWsM_false_nonspace (f : List Char) :
    ∀ rest acc : List Char, (∀ c ∈ f, isPySpace c = false) →
      splitWsM false (f ++ rest) acc = splitWsM false rest (f.reverse ++ acc) := by
  induction f with
  | nil => intro rest acc _; simp
  | cons c f ih =>
    intro rest acc h
    have hc : isPySpace c = false := h c (List.mem_cons_self c f)
    simp only [List.cons_append, splitWsM, hc, Bool.false_eq_true, if_false,
      List.append_eq]
    rw [ih rest (c :: acc) fun x hx => h x (List.mem_cons_of_mem c hx)]
    simp

theorem splitWsM_field (b : Bool) (f rest acc : List Char) (hne : f ≠ [])
    (hns : ∀ c ∈ f, isPySpace c = false) :
    splitWsM b (f ++ rest) acc = splitWsM false rest (f.reverse ++ acc) := by
  cases f with
  | nil => exact absurd rfl hne
  | cons c f =>
    have hc : isPySpace c = false := hns c (List.mem_cons_self c f)
    simp only [List.cons_append, splitWsM, hc, Bool.false_eq_true, if_false,
      List.append_eq]
    rw [splitWsM_false_nonspace f rest (c :: acc)
      fun x hx => hns x (List.mem_cons_of_mem c hx)]
    simp

theorem splitWsM_false_space (rest acc : List Char) :
    splitWsM false (' ' :: rest) acc = acc.reverse :: splitWsM true rest [] := by
  simp [splitWsM, isPySpace]

theorem splitWsM_joinChars (fs : List (List Char)) :
    ∀ b : Bool, fs ≠ [] →
      (∀ f ∈ fs, f ≠ [] ∧ ∀ c ∈ f, isPySpace c = false) →
      splitWsM b (joinChars fs) [] = fs := by
  induction fs with
  | nil => intro b h _; exact absurd rfl h
  | cons f fs ih =>
    intro b _ hgood
    obtain ⟨hfne, hfns⟩ := hgood f (List.mem_cons_self f fs)
    cases fs with
    | nil =>
      have hj : joinChars [f] = f ++ [] := by simp [joinChars]
      rw [hj, splitWsM_field b f [] [] hfne hfns]
      simp [splitWsM]
    | cons g fs' =>
      have hj : joinChars (f :: g :: fs') = f ++ ' ' :: joinChars (g :: fs') := by
        simp [joinChars]
      rw [hj, splitWsM_field b f (' ' :: joinChars (g :: fs')) [] hfne hfns,
        splitWsM_false_space,
        ih true (by simp) fun x hx => hgood x (List.mem_cons_of_mem f hx)]
      simp

theorem wsFields_joinSpace (l : List String) (hne : l ≠ [])
    (hgood : ∀ f ∈ l, GoodField f) :
    wsFields (joinSpace l) = l := by
  have h1 : l.map String.data ≠ [] := by simpa using hne
  have h2 : ∀ f ∈ l.map String.data, f ≠ [] ∧ ∀ c ∈ f, isPySpace c = false := by
    intro f hf
    obtain ⟨x, hx, rfl⟩ := List.mem_map.mp hf
    exact hgood x hx
  unfold wsFields splitWs
  rw [data_joinSpace, splitWsM_joinChars (l.map String.data) false h1 h2]
  simp [List.map_map, Function.comp_def, string_mk_data]

/-! ## Claim theorems: crontab codec -/

/-- C4 (confirmed): for every well-formed crontab string consisting of
exactly 5 fields separated by single spaces, `format(parse(s)) == s`:
`process_result_value` is a left inverse of `process_bind_param` on such
strings. -/
theorem crontab_format_parse_round_trip (f1 f2 f3 f4 f5 : String)
    (h1 : GoodField f1) (h2 : GoodField f2) (h3 : GoodField f3)
    (h4 : GoodField f4) (h5 : GoodField f5) :
    crontabRoundTrip (joinSpace [f1, f2, f3, f4, f5]) =
      .ok (joinSpace [f1, f2, f3, f4, f5]) := by
  have hfields : wsFields (joinSpace [f1, f2, f3, f4, f5]) = [f1, f2, f3, f4, f5] := by
    apply wsFields_joinSpace
    · simp
    · intro f hf
      simp only [List.mem_cons, List.not_mem_nil, or_false] at hf
      rcases hf with rfl | rfl | rfl | rfl | rfl <;> assumption
  unfold crontabRoundTrip process_bind_param
  rw [hfields]
  simp [crontabKeys, process_result_value, Except.bind]

/-- Witness for C4, at the concrete input `"* * * * *"`. -/
theorem crontab_format_parse_round_trip_witness :
    crontabRoundTrip (joinSpace ["*", "*", "*", "*", "*"]) =
      .ok (joinSpace ["*", "*", "*", "*", "*"]) :=
  crontab_format_parse_round_trip "*" "*" "*" "*" "*"
    (by decide) (by decide) (by decide) (by decide) (by decide)

/-- C5 (confirmed): `process_bind_param` raises its `ValueError` exactly when
the number of whitespace-separated fields differs from 5; in particular
`"a b c d e"` is accepted with no semantic range checking, while `"* * *"`
is rejected. -/
theorem crontab_parse_error_iff_field_count :
    (∀ s : String,
        (∃ msg, process_bind_param s = .error (.valueError msg)) ↔
          (wsFields s).length ≠ 5) ∧
      (∃ d, process_bind_param "a b c d e" = .ok d) ∧
      (∃ msg, process_bind_param "* * *" = .error (.valueError msg)) := by
  refine ⟨fun s => ?_, ⟨_, rfl⟩, ⟨_, rfl⟩⟩
  unfold process_bind_param
  by_cases h : (wsFields s).length = 5 <;> simp [h]

/-- C6 counterexample: parsing the 5-field string `"a b c d e"` binds the
third field `"c"` to the `day_of_week` component and the fourth field `"d"`
to `day_of_month`, so the third field does not become the day-of-month
component as claimed. -/
theorem crontab_third_field_counterexample :
    process_bind_param "a b c d e" =
        .ok [("minute", "a"), ("hour", "b"), ("day_of_week", "c"),
          ("day_of_month", "d"), ("month_of_year", "e")] ∧
      [("minute", "a"), ("hour", "b"), ("day_of_week", "c"),
          ("day_of_month", "d"), ("month_of_year", "e")].lookup "day_of_month" =
        some "d" ∧
      [("minute", "a"), ("hour", "b"), ("day_of_week", "c"),
          ("day_of_month", "d"), ("month_of_year", "e")].lookup "day_of_week" =
        some "c" ∧
      (some "d" : Option String) ≠ some "c" :=
  ⟨rfl, rfl, rfl, by decide⟩

/-- C6 amended (proved): for every well-formed 5-field crontab string, parse
assigns the fields in input order as minute, hour, day-of-week,
day-of-month, month-of-year — the tuple order of `CrontabType.keys` — so the
third field becomes the day-of-week component and the fifth field the
month-of-year component. -/
theorem crontab_parse_field_assignment (f1 f2 f3 f4 f5 : String)
    (h1 : GoodField f1) (h2 : GoodField f2) (h3 : GoodField f3)
    (h4 : GoodField f4) (h5 : GoodField f5) :
    process_bind_param (joinSpace [f1, f2, f3, f4, f5]) =
      .ok [("minute", f1), ("hour", f2), ("day_of_week", f3),
        ("day_of_month", f4), ("month_of_year", f5)] := by
  have hfields : wsFields (joinSpace [f1, f2, f3, f4, f5]) = [f1, f2, f3, f4, f5] := by
    apply wsFields_joinSpace
    · simp
    · intro f hf
      simp only [List.mem_cons, List.not_mem_nil, or_false] at hf
      rcases hf with rfl | rfl | rfl | rfl | rfl <;> assumption
  unfold process_bind_param
  rw [hfields]
  simp [crontabKeys]

/-- Witness for the amended C6, at the concrete input `"a b c d e"`. -/
theorem crontab_parse_field_assignment_witness :
    process_bind_param (joinSpace ["a", "b", "c", "d", "e"]) =
      .ok [("minute", "a"), ("hour", "b"), ("day_of_week", "c"),
        ("day_of_month", "d"), ("month_of_year", "e")] :=
  crontab_parse_field_assignment "a" "b" "c" "d" "e"
    (by decide) (by decide) (by decide) (by decide) (by decide)

/-! ## Claim theorems: Event lifecycle -/

/-- C2 (code bug): the derived `active` property is claimed to hold iff
`isActive` and `startAt ≤ t < finishAt`; but whenever `finishAt > t` the code
at models.py line 97 compares the datetime `t` with the coroutine returned by
`self.on_start()` and raises `TypeError` instead of producing a boolean.
Concretely, for an event with `startAt = 0`, `finishAt = 10`,
`isActive = true` at `t = 5`, the claim's predicate is true while the code
raises. -/
theorem event_active_raises_typeError :
    Event.active { id := 1, startAt := 0, finishAt := 10 } 5 =
        .error .typeError ∧
      Event.activeSpec { id := 1, startAt := 0, finishAt := 10 } 5 = true :=
  ⟨rfl, rfl⟩

/-- C3 (code bug): the start task is claimed to be scheduled with a delay of
`startAt - now` so that it fires no earlier than `startAt`; but the hook
passes `countdown=target.start_in.seconds`, the seconds *component* of the
timedelta (total seconds modulo 86400).  For an active event created at
`now = 0` with `startAt` two days ahead (172800 s) and `finishAt` a minute
later, the start task is scheduled with eta `0 + 172800 % 86400 = 0`,
strictly earlier than `startAt`; the finish task's eta 60 likewise precedes
`finishAt = 172860`. -/
theorem event_create_countdown_drops_days :
    (on_event_create 0 1 { id := 1, startAt := 172800, finishAt := 172860 }).2 =
        [{ id := 1, kind := .eventStart, eventId := 1, eta := 0 },
         { id := 2, kind := .eventFinish, eventId := 1, eta := 60 }] ∧
      (0 : Nat) < 172800 ∧ (60 : Nat) < 172860 :=
  ⟨rfl, by decide, by decide⟩

/-- C9 counterexample: the `before_update` hook revokes the stored task ids
but never clears the `on_start_task_id` / `on_finish_task_id` columns, so an
Event updated while inactive keeps its old non-empty refs.  Concretely, an
inactive event carrying refs 7 and 8 still carries them after the update
hook, contradicting the claim that both refs are empty. -/
theorem event_update_keeps_stale_refs :
    (on_event_update 100 9
        { id := 1, startAt := 0, finishAt := 10, isActive := false,
          onStartTaskId := some 7, onFinishTaskId := some 8 }).1.onStartTaskId =
        some 7 ∧
      (on_event_update 100 9
        { id := 1, startAt := 0, finishAt := 10, isActive := false,
          onStartTaskId := some 7, onFinishTaskId := some 8 }).1.onFinishTaskId =
        some 8 ∧
      (some 7 : Option Nat) ≠ none ∧ (some 8 : Option Nat) ≠ none :=
  ⟨rfl, rfl, by decide, by decide⟩

/-- C9 amended (proved): after a create of a record whose refs start empty
(the column default for a new row), an inactive Event, or one whose start and
finish times are both past, ends with both refs empty; after an update,
however, the hook revokes the stored task ids but leaves the ref fields with
their prior values, so an inactive or past Event keeps whatever refs it had
before the update. -/
theorem event_refs_after_hooks :
    (∀ (now nid : Nat) (e : Event),
        e.onStartTaskId = none → e.onFinishTaskId = none →
        (e.isActive = false ∨ (e.startAt < now ∧ e.finishAt < now)) →
        (on_event_create now nid e).1.onStartTaskId = none ∧
          (on_event_create now nid e).1.onFinishTaskId = none) ∧
      (∀ (now nid : Nat) (e : Event),
        (e.isActive = false ∨ (e.startAt < now ∧ e.finishAt < now)) →
        (on_event_update now nid e).1.onStartTaskId = e.onStartTaskId ∧
          (on_event_update now nid e).1.onFinishTaskId = e.onFinishTaskId) := by
  constructor
  · intro now nid e hs hf h
    unfold on_event_create
    rcases h with h | ⟨h1, h2⟩
    · simp [h, hs, hf]
    · have hs' : e.start_in now = none := by
        simp [Event.start_in, Nat.not_le.mpr h1]
      have hf' : e.finish_in now = none := by
        simp [Event.finish_in, Nat.not_le.mpr h2]
      by_cases ha : e.isActive
      · simp [ha, scheduleEventTasks, hs', hf', truthyDelta, hs, hf]
      · simp [ha, hs, hf]
  · intro now nid e h
    unfold on_event_update
    rcases h with h | ⟨h1, h2⟩
    · simp [h]
    · have hs' : e.start_in now = none := by
        simp [Event.start_in, Nat.not_le.mpr h1]
      have hf' : e.finish_in now = none := by
        simp [Event.finish_in, Nat.not_le.mpr h2]
      by_cases ha : e.isActive
      · simp [ha, scheduleEventTasks, hs', hf', truthyDelta]
      · simp [ha]

/-- Witness for the amended C9: a concrete inactive event on create, a
concrete inactive event on update, and a concrete active event with both
times past on update. -/
theorem event_refs_after_hooks_witness :
    ((on_event_create 100 1
          { id := 1, startAt := 0, finishAt := 10, isActive := false }).1.onStartTaskId =
        none ∧
      (on_event_create 100 1
          { id := 1, startAt := 0, finishAt := 10, isActive := false }).1.onFinishTaskId =
        none) ∧
      ((on_event_update 100 1
          { id := 1, startAt := 0, finishAt := 10, isActive := false,
            onStartTaskId := some 7 }).1.onStartTaskId = some 7 ∧
        (on_event_update 100 1
          { id := 1, startAt := 0, finishAt := 10, isActive := false,
            onStartTaskId := some 7 }).1.onFinishTaskId = none) ∧
      ((on_event_update 100 1
          { id := 1, startAt := 1, finishAt := 2, isActive := true,
            onStartTaskId := some 7, onFinishTaskId := some 8 }).1.onStartTaskId =
          some 7 ∧
        (on_event_update 100 1
          { id := 1, startAt := 1, finishAt := 2, isActive := true,
            onStartTaskId := some 7, onFinishTaskId := some 8 }).1.onFinishTaskId =
          some 8) :=
  ⟨event_refs_after_hooks.1 100 1 _ rfl rfl (Or.inl rfl),
   event_refs_after_hooks.2 100 1
     { id := 1, startAt := 0, finishAt := 10, isActive := false,
       onStartTaskId := some 7 } (Or.inl rfl),
   event_refs_after_hooks.2 100 1
     { id := 1, startAt := 1, finishAt := 2, isActive := true,
       onStartTaskId := some 7, onFinishTaskId := some 8 }
     (Or.inr ⟨by decide, by decide⟩)⟩

/-! ## Claim theorems: generator handler -/

/-- Auxiliary: after saving the mutated generator `g1` (same id as the found
record), looking the id up again yields `g1`. -/
theorem findGenerator_after_save (i : Nat) (g1 : EventGenerator)
    (hid : g1.id = i) :
    ∀ db : List EventGenerator, (findGenerator db i).isSome →
      findGenerator (saveGenerator db g1) i = some g1 := by
  intro db
  induction db with
  | nil => intro h; simp [findGenerator] at h
  | cons x db ih =>
    intro h
    by_cases hx : x.id = i
    · have hbeq : (x.id == g1.id) = true := by simp [hx, hid]
      have hsave : saveGenerator (x :: db) g1 = g1 :: saveGenerator db g1 := by
        simp only [saveGenerator, List.map_cons]
        rw [if_pos hbeq]
      unfold findGenerator
      rw [hsave, List.find?_cons_of_pos _ (by simp [hid])]
    · have hbeq : (x.id == g1.id) = false := by simp [hx, hid]
      have hsave : saveGenerator (x :: db) g1 = x :: saveGenerator db g1 := by
        simp only [saveGenerator, List.map_cons]
        rw [if_neg (by simp [hbeq])]
      have h' : (findGenerator db i).isSome := by
        unfold findGenerator at h
        rwa [List.find?_cons_of_neg _ (by simp [hx])] at h
      have hstep : findGenerator (saveGenerator (x :: db) g1) i =
          findGenerator (saveGenerator db g1) i := by
        rw [hsave]
        unfold findGenerator
        rw [List.find?_cons_of_neg _ (by simp [hx])]
      rw [hstep]
      exact ih h'

/-- C8 counterexample: firing the `"generatorRun"` handler for an existing
generator with `enabled = false` creates one Event and increments
`totalRunCount` from 0 to 1 (stamping `lastRunAt`), because
`_events_generator_run` checks only that the record exists, never `enabled`
or `active`. -/
theorem generator_run_handler_disabled_counterexample :
    (events_generator_run 5 7
        [{ id := 1, enabled := false, startAt := 0, finishAt := 10 }] 1).2.length = 1 ∧
      (events_generator_run 5 7
        [{ id := 1, enabled := false, startAt := 0, finishAt := 10 }] 1).1 =
        [{ id := 1, enabled := false, lastRunAt := some 5, totalRunCount := 1,
           startAt := 0, finishAt := 10 }] ∧
      (1 : Nat) ≠ 0 :=
  ⟨rfl, rfl, by decide⟩

/-- C8 amended (proved): the `"generatorRun"` handler is a no-op only when the
generator is missing; for every existing generator — whatever its `enabled`
flag — it calls `run()`, which creates exactly one Event from the templated
parameters and stores the generator back with `lastRunAt = now` and
`totalRunCount` incremented by 1. -/
theorem generatorRun_noop_only_when_missing (now eid i : Nat)
    (db : List EventGenerator) :
    (findGenerator db i = none → events_generator_run now eid db i = (db, [])) ∧
      (∀ g, findGenerator db i = some g →
        (∃ ev, (events_generator_run now eid db i).2 = [ev] ∧
          ev.generatorId = some g.id ∧ ev.isActive = true ∧
          ev.startAt = g.startAt ∧ ev.finishAt = g.finishAt ∧
          ev.payload = g.payload) ∧
        findGenerator (events_generator_run now eid db i).1 i =
          some { g with lastRunAt := some now,
                        totalRunCount := g.totalRunCount + 1 }) := by
  constructor
  · intro h
    simp [events_generator_run, h]
  · intro g hg
    have hid : g.id = i := by
      have := List.find?_some hg
      simpa using this
    refine ⟨⟨(g.run now eid).2, ?_, rfl, rfl, rfl, rfl, rfl⟩, ?_⟩
    · simp [events_generator_run, hg]
    · have hrun1 : (g.run now eid).1 =
          { g with lastRunAt := some now, totalRunCount := g.totalRunCount + 1 } := rfl
      have hsome : (findGenerator db i).isSome := by simp [hg]
      have := findGenerator_after_save i (g.run now eid).1 (by simp [hrun1, hid]) db hsome
      simp only [events_generator_run, hg]
      rw [this, hrun1]

/-- Witness for the amended C8, at the concrete disabled generator. -/
theorem generatorRun_noop_only_when_missing_witness :
    (events_generator_run 5 7
        [{ id := 1, enabled := false, startAt := 0, finishAt := 10 }] 1).2.length = 1 ∧
      findGenerator
          (events_generator_run 5 7
            [{ id := 1, enabled := false, startAt := 0, finishAt := 10 }] 1).1 1 =
        some { id := 1, enabled := false, lastRunAt := some 5, totalRunCount := 1,
               startAt := 0, finishAt := 10 } := by
  obtain ⟨⟨ev, hev, -⟩, hfind⟩ :=
    (generatorRun_noop_only_when_missing 5 7 1
      [{ id := 1, enabled := false, startAt := 0, finishAt := 10 }]).2
      { id := 1, enabled := false, startAt := 0, finishAt := 10 } rfl
  exact ⟨by rw [hev]; rfl, hfind⟩

/-! ## Claim theorems: generator pool -/

/-- C1 (code bug): a pool with `runScheme = ANY` and three enabled member
generators is claimed to leave exactly one of them active after `run()`; but
`self.run_scheme is 'any'` compares the `Choice`-wrapped scheme with a string
literal by object identity, which is false, so the defensive default selects
nothing: `run()` deactivates all three enabled generators and activates none
(0 active, not 1). -/
theorem pool_run_any_activates_none :
    EventGeneratorPool.run 0 { id := 1, runScheme := ⟨"any"⟩ }
        [{ id := 1, startAt := 0, finishAt := 1 },
         { id := 2, startAt := 0, finishAt := 1 },
         { id := 3, startAt := 0, finishAt := 1 }] =
      .ok ({ id := 1, runScheme := ⟨"any"⟩ },
        [{ id := 1, isActive := false, startAt := 0, finishAt := 1 },
         { id := 2, isActive := false, startAt := 0, finishAt := 1 },
         { id := 3, isActive := false, startAt := 0, finishAt := 1 }]) ∧
      countEnabledActive
        [{ id := 1, isActive := false, startAt := 0, finishAt := 1 },
         { id := 2, isActive := false, startAt := 0, finishAt := 1 },
         { id := 3, isActive := false, startAt := 0, finishAt := 1 }] = 0 ∧
      (0 : Nat) ≠ 1 :=
  ⟨rfl, rfl, by decide⟩

/-- C7 (code bug): `run()` is claimed to stamp the pool's `lastRunAt` and
increment its `totalRunCount`; but the method body never writes any pool
column (it does not even read the clock), so after a run on a pool with
`totalRunCount = 0` the returned pool still has `lastRunAt = none` and
`totalRunCount = 0`, not 1. -/
theorem pool_run_does_not_stamp :
    EventGeneratorPool.run 0 { id := 1 } [{ id := 1, startAt := 0, finishAt := 1 }] =
        .ok ({ id := 1 },
          [{ id := 1, isActive := false, startAt := 0, finishAt := 1 }]) ∧
      ({ id := 1 } : EventGeneratorPool).lastRunAt = none ∧
      ({ id := 1 } : EventGeneratorPool).totalRunCount = 0 ∧
      (0 : Nat) ≠ 1 :=
  ⟨rfl, rfl, rfl, by decide⟩

/-- C10 (confirmed): `run()` never modifies a member generator whose
`enabled` field is false: the pool record is returned unchanged and the
generator table entry at every position holding a disabled generator is
exactly the generator that was there before the run. -/
theorem pool_run_preserves_disabled (k : Nat) (p : EventGeneratorPool)
    (gens : List EventGenerator) (i : Nat) (h : i < gens.length)
    (hdis : gens[i].enabled = false) :
    ∃ gens', p.run k gens = .ok (p, gens') ∧
      ∃ h' : i < gens'.length, gens'[i] = gens[i] := by
  refine ⟨gens.map fun g => if g.enabled then { g with isActive := false } else g,
    ?_, ?_⟩
  · conv_rhs =>
      rw [← List.map_id'
        (gens.map fun g => if g.enabled then { g with isActive := false } else g)]
    rfl
  · refine ⟨by simpa using h, ?_⟩
    rw [List.getElem_map]
    simp [hdis]

/-- Witness for C10, at a concrete pool and a single disabled generator. -/
theorem pool_run_preserves_disabled_witness :
    ∃ gens',
      EventGeneratorPool.run 0 { id := 1 }
          [{ id := 1, enabled := false, startAt := 0, finishAt := 1 }] =
        .ok ({ id := 1 }, gens') ∧
      ∃ h' : 0 < gens'.length,
        gens'[0] = { id := 1, enabled := false, startAt := 0, finishAt := 1 } :=
  pool_run_preserves_disabled 0 { id := 1 }
    [{ id := 1, enabled := false, startAt := 0, finishAt := 1 }] 0
    (by decide) (by decide)

end EventService
